import Mathlib

/-!
Shallow embedding of TetraTools.hxx, a reader/writer for TetGen-style
ASCII node/ele mesh files and a compact binary mesh format.

Modelling conventions, fixed once for the whole development:

* An ASCII input file is given after the lexical phase as a `SigFile`:
  the list of integer tokens of the first significant line (blank lines
  and `#` comment lines already skipped, lines trimmed), followed by the
  numeric token lists of every later significant line.  The C++ readers
  extract the header with `iss >> int` and the body with `iss >> float`;
  files whose significant lines are not plain numerals are outside this
  model.

* `uint32_t` values are `Nat` with explicit `% 2 ^ 32` wherever the C++
  performs unsigned arithmetic that can wrap (header-derived field
  values come through `toU32`, which is the C++ `int` → `uint32_t`
  conversion).

* Float VALUES held in memory (`std::vector<float>` entries) are
  represented by the rational number they denote.  Binary I/O copies
  their four bytes verbatim, which is value-preserving, so the binary
  codec below is exact.  Two lossy float boundaries exist in the C++
  and are modelled explicitly where a claim depends on them:
  `read_ele` parses node references with `iss >> float`, which rounds
  an integer token to the nearest binary32 (`floatRoundNat`); text
  OUTPUT of float values with the stream's default 6-significant-digit
  precision is NOT modelled (the writers below emit the held value
  exactly), and claims that hinge on that formatting are reported as
  not statable rather than proved from this idealisation.

* File-system effects: the readers receive the file content directly
  (existence and open success assumed; claims do not exercise the
  `FileNotFound`/`IoError` paths).  For the binary exporter, whose
  open-before-validate ordering is itself under test, the function is
  embedded as the list of externally visible events it performs
  (`write_node_ele_as_binary_events`).

* Out-of-bounds `std::vector::operator[]` reads (undefined behaviour in
  C++) are modelled by `List.getD _ 0`; every proved theorem about such
  code carries hypotheses keeping the accesses in bounds, except where
  the point is precisely that the C++ validation missed them.
-/

/-- Conversion of a C++ `int` value to `uint32_t`: reduction modulo `2 ^ 32`. -/
def toU32 (z : ℤ) : ℕ := (z % (2 ^ 32 : ℤ)).toNat

/-- Significant content of an ASCII file: integer tokens of the first
significant line, then numeric tokens of each later significant line. -/
structure SigFile where
  header : List ℤ
  records : List (List ℚ)
deriving DecidableEq

/-- Header field named by an `InvalidHeaderField` failure. -/
inductive HeaderField where
  | pointCount
  | dimension
  | attributeCount
  | boundaryMarkers
  | elementCount
  | nodesPerElement
deriving DecidableEq

/-- Error taxonomy of the library (each `throw std::runtime_error` site,
keyed by its message). -/
inductive Err where
  | fileNotFound
  | ioError
  | malformedHeader
  | invalidHeaderField (field : HeaderField)
  | malformedRecord
  | sizeMismatch
  | unsupportedDimension
  | unsupportedTopology
  | attributeIndexOutOfRange
deriving DecidableEq

/-- The `Node` structure of TetraTools.hxx (point set). -/
structure Node where
  num_points : ℕ
  dimension : ℕ
  num_attributes : ℕ
  num_boundary_markers : ℕ
  points : List ℚ
  attributes : List ℚ
  boundary_markers : List ℚ
deriving DecidableEq

/-- The `Ele` structure of TetraTools.hxx (element set). -/
structure Ele where
  num_tetrahedra : ℕ
  nodes_per_tetrahedron : ℕ
  num_attributes : ℕ
  nodes : List ℕ
  attributes : List ℚ
deriving DecidableEq

/-- Fuel-bounded exponent search: number of halvings of `m` needed to get
below `2 ^ 24`.  For `m < 2 ^ (24 + fuel)` this is `bitlength m - 24`
(and `0` for small `m`). -/
def fl32Shift : ℕ → ℕ → ℕ
  | 0, _ => 0
  | fuel + 1, m => if m < 2 ^ 24 then 0 else fl32Shift fuel (m / 2) + 1

/-- Value of the binary32 float nearest to the natural number `n`
(round to nearest, ties to even), for `n < 2 ^ 88`.  This is the value
produced by `iss >> float` on the decimal numeral of `n`. -/
def floatRoundNat (n : ℕ) : ℕ :=
  if n ≤ 2 ^ 24 then n
  else
    let k := fl32Shift 64 n
    let q := n / 2 ^ k
    let r := n % 2 ^ k
    let half := 2 ^ (k - 1)
    if r < half then q * 2 ^ k
    else if half < r then (q + 1) * 2 ^ k
    else if q % 2 = 0 then q * 2 ^ k else (q + 1) * 2 ^ k

/-- Node-reference conversion of `read_ele` (line 214 of the source):
`((uint32_t) floats[offset]) - 1` where `floats[offset]` came from
`iss >> float`.  For a non-negative integer token the parsed float is
`floatRoundNat`, the `uint32_t` cast truncates (exact on integral
values; wrap models the out-of-range cast, which C++ leaves undefined),
and the unsigned `- 1` wraps modulo `2 ^ 32`.  Non-integral or negative
tokens do not occur in any claim and are mapped to `0`. -/
def cvtNodeRef (q : ℚ) : ℕ :=
  if q.den = 1 ∧ 0 ≤ q.num then
    (floatRoundNat q.num.toNat + (2 ^ 32 - 1)) % 2 ^ 32
  else 0

/-- Body-record step of `read_node` (lines 128-146): check the token
count (`uint32` sum, wrapping), then append `dimension` coordinates,
`num_attributes` attributes and `num_boundary_markers` markers taken at
offsets `1`, `1 + dimension`, `1 + dimension + num_attributes`. -/
def read_node_record (node : Node) (rec : List ℚ) : Except Err Node :=
  if rec.length ≠ (1 + node.dimension + node.num_attributes + node.num_boundary_markers) % 2 ^ 32 then
    .error .malformedRecord
  else
    .ok { node with
      points := node.points ++
        (List.range node.dimension).map (fun i => rec.getD (1 + i) 0),
      attributes := node.attributes ++
        (List.range node.num_attributes).map (fun i => rec.getD (1 + node.dimension + i) 0),
      boundary_markers := node.boundary_markers ++
        (List.range node.num_boundary_markers).map
          (fun i => rec.getD (1 + node.dimension + node.num_attributes + i) 0) }

/-- Folds `read_node_record` over the body records, aborting on the
first failure, as the `while (getline ...)` loop does. -/
def read_node_records : Node → List (List ℚ) → Except Err Node
  | node, [] => .ok node
  | node, r :: rs =>
    match read_node_record node r with
    | .error e => .error e
    | .ok node2 => read_node_records node2 rs

/-- The `read_node` function (lines 74-151): header token count, field
assignment through the `int` → `uint32_t` conversion, the four header
validations in source order, then the body records.  The `≤ 0` and
`< 0` comparisons are kept verbatim; on `ℕ` (as on `uint32_t`) the
first only catches `0` and the second never fires. -/
def read_node (f : SigFile) : Except Err Node :=
  if f.header.length ≠ 4 then .error .malformedHeader
  else
    let node0 : Node :=
      { num_points := toU32 (f.header.getD 0 0)
        dimension := toU32 (f.header.getD 1 0)
        num_attributes := toU32 (f.header.getD 2 0)
        num_boundary_markers := toU32 (f.header.getD 3 0)
        points := []
        attributes := []
        boundary_markers := [] }
    if node0.num_points ≤ 0 then .error (.invalidHeaderField .pointCount)
    else if ¬(node0.dimension = 2 ∨ node0.dimension = 3) then
      .error (.invalidHeaderField .dimension)
    else if node0.num_attributes < 0 then .error (.invalidHeaderField .attributeCount)
    else if ¬(node0.num_boundary_markers = 1 ∨ node0.num_boundary_markers = 0) then
      .error (.invalidHeaderField .boundaryMarkers)
    else read_node_records node0 f.records

/-- Body-record step of `read_ele` (lines 204-218): check the token
count, then append `nodes_per_tetrahedron` node references through
`cvtNodeRef` and `num_attributes` attributes. -/
def read_ele_record (ele : Ele) (rec : List ℚ) : Except Err Ele :=
  if rec.length ≠ (1 + ele.nodes_per_tetrahedron + ele.num_attributes) % 2 ^ 32 then
    .error .malformedRecord
  else
    .ok { ele with
      nodes := ele.nodes ++
        (List.range ele.nodes_per_tetrahedron).map (fun i => cvtNodeRef (rec.getD (1 + i) 0)),
      attributes := ele.attributes ++
        (List.range ele.num_attributes).map
          (fun i => rec.getD (1 + ele.nodes_per_tetrahedron + i) 0) }

/-- Folds `read_ele_record` over the body records, aborting on the first
failure. -/
def read_ele_records : Ele → List (List ℚ) → Except Err Ele
  | ele, [] => .ok ele
  | ele, r :: rs =>
    match read_ele_record ele r with
    | .error e => .error e
    | .ok ele2 => read_ele_records ele2 rs

/-- The `read_ele` function (lines 154-223): header token count, field
assignment, the three header validations in source order, then the body
records.  A failed open is only logged by the C++ and cannot occur in
this content-level model. -/
def read_ele (f : SigFile) : Except Err Ele :=
  if f.header.length ≠ 3 then .error .malformedHeader
  else
    let ele0 : Ele :=
      { num_tetrahedra := toU32 (f.header.getD 0 0)
        nodes_per_tetrahedron := toU32 (f.header.getD 1 0)
        num_attributes := toU32 (f.header.getD 2 0)
        nodes := []
        attributes := [] }
    if ele0.num_tetrahedra ≤ 0 then .error (.invalidHeaderField .elementCount)
    else if ¬(ele0.nodes_per_tetrahedron = 4 ∨ ele0.nodes_per_tetrahedron = 10) then
      .error (.invalidHeaderField .nodesPerElement)
    else if ele0.num_attributes < 0 then .error (.invalidHeaderField .attributeCount)
    else read_ele_records ele0 f.records

/-- The `write_node` function (lines 226-274): after the open (assumed
successful), the four header re-validations, then the two array-length
checks (`points`, `attributes`; `boundary_markers` has no check in the
source), then the emitted file: the header line and one line per point,
a sequential index followed by coordinates, attributes and markers.
Indexing arithmetic inside the loop is `uint32`, hence the `% 2 ^ 32`;
the required lengths `num_points * dimension` and
`num_points * num_attributes` are likewise `uint32` products. -/
def write_node (node : Node) : Except Err SigFile :=
  if node.num_points ≤ 0 then .error (.invalidHeaderField .pointCount)
  else if ¬(node.dimension = 2 ∨ node.dimension = 3) then
    .error (.invalidHeaderField .dimension)
  else if node.num_attributes < 0 then .error (.invalidHeaderField .attributeCount)
  else if ¬(node.num_boundary_markers = 1 ∨ node.num_boundary_markers = 0) then
    .error (.invalidHeaderField .boundaryMarkers)
  else if node.points.length < (node.num_points * node.dimension) % 2 ^ 32 then
    .error .sizeMismatch
  else if node.attributes.length < (node.num_points * node.num_attributes) % 2 ^ 32 then
    .error .sizeMismatch
  else
    .ok { header := [(node.num_points : ℤ), (node.dimension : ℤ),
                     (node.num_attributes : ℤ), (node.num_boundary_markers : ℤ)]
          records := (List.range node.num_points).map (fun (i : ℕ) =>
            (i : ℚ) ::
              ((List.range node.dimension).map
                (fun j => node.points.getD ((i * node.dimension + j) % 2 ^ 32) 0) ++
               (List.range node.num_attributes).map
                (fun j => node.attributes.getD ((i * node.num_attributes + j) % 2 ^ 32) 0) ++
               (List.range node.num_boundary_markers).map
                (fun j => node.boundary_markers.getD ((i * node.num_boundary_markers + j) % 2 ^ 32) 0))) }

/-- The `write_ele` function (lines 277-320): after the open (assumed
successful), the three header re-validations, the two array-length
checks, then the emitted file: the header line and one line per
tetrahedron, a sequential index, the node indices each incremented by 1
in `uint32` arithmetic, then the attributes. -/
def write_ele (ele : Ele) : Except Err SigFile :=
  if ele.num_tetrahedra ≤ 0 then .error (.invalidHeaderField .elementCount)
  else if ¬(ele.nodes_per_tetrahedron = 4 ∨ ele.nodes_per_tetrahedron = 10) then
    .error (.invalidHeaderField .nodesPerElement)
  else if ele.num_attributes < 0 then .error (.invalidHeaderField .attributeCount)
  else if ele.nodes.length < (ele.num_tetrahedra * ele.nodes_per_tetrahedron) % 2 ^ 32 then
    .error .sizeMismatch
  else if ele.attributes.length < (ele.num_tetrahedra * ele.num_attributes) % 2 ^ 32 then
    .error .sizeMismatch
  else
    .ok { header := [(ele.num_tetrahedra : ℤ), (ele.nodes_per_tetrahedron : ℤ),
                     (ele.num_attributes : ℤ)]
          records := (List.range ele.num_tetrahedra).map (fun (i : ℕ) =>
            (i : ℚ) ::
              ((List.range ele.nodes_per_tetrahedron).map
                (fun j => (((ele.nodes.getD ((i * ele.nodes_per_tetrahedron + j) % 2 ^ 32) 0 + 1) % 2 ^ 32 : ℕ) : ℚ)) ++
               (List.range ele.num_attributes).map
                (fun j => ele.attributes.getD ((i * ele.num_attributes + j) % 2 ^ 32) 0))) }

/-- Four-byte word of the binary mesh format: either the bytes of a
binary32 float (identified with the value it denotes) or a `uint32`. -/
inductive BWord where
  | f (q : ℚ)
  | u (n : ℕ)
deriving DecidableEq

/-- Scalar block assembled by `write_node_ele_as_binary` (lines
359-362): one value per point, the selected attribute when the point
set has attributes and `0.0` otherwise; the element index arithmetic is
`uint32`. -/
def scalarsOf (node : Node) (attribute_idx : ℕ) : List ℚ :=
  (List.range node.num_points).map (fun i =>
    if node.num_attributes > 0 then
      node.attributes.getD ((i * node.num_attributes + attribute_idx) % 2 ^ 32) 0
    else 0)

/-- Post-parse, post-open body of `write_node_ele_as_binary` (lines
332-367): the three validations in source order, then the binary file:
`uint32` 4, `uint32` point count, `uint32` index count
(`num_tetrahedra * 4`, wrapping), `num_points * 3` floats (a wrapping
`uint32` product deciding how many vector entries are written), the
scalar block, and `num_tetrahedra * 4` `uint32` node indices. -/
def write_node_ele_as_binary_core (node : Node) (ele : Ele) (attribute_idx : ℕ) :
    Except Err (List BWord) :=
  if node.num_attributes ≤ attribute_idx ∧ attribute_idx ≠ 0 then
    .error .attributeIndexOutOfRange
  else if node.dimension ≠ 3 then .error .unsupportedDimension
  else if ele.nodes_per_tetrahedron ≠ 4 then .error .unsupportedTopology
  else
    .ok ([BWord.u 4, BWord.u node.num_points, BWord.u ((ele.num_tetrahedra * 4) % 2 ^ 32)] ++
      (node.points.take ((node.num_points * 3) % 2 ^ 32)).map BWord.f ++
      (scalarsOf node attribute_idx).map BWord.f ++
      (ele.nodes.take ((ele.num_tetrahedra * 4) % 2 ^ 32)).map BWord.u)

/-- The full `write_node_ele_as_binary` (lines 323-368) as a value:
parse the element set, then the point set, then the core body.  Parse
failures propagate before the output file is touched. -/
def write_node_ele_as_binary (node_file ele_file : SigFile) (attribute_idx : ℕ) :
    Except Err (List BWord) :=
  match read_ele ele_file with
  | .error e => .error e
  | .ok ele =>
    match read_node node_file with
    | .error e => .error e
    | .ok node => write_node_ele_as_binary_core node ele attribute_idx

/-- Externally visible event of the binary exporter. -/
inductive ExpEv where
  | openTrunc
  | fail (e : Err)
  | emit (file : List BWord)
deriving DecidableEq

/-- Event trace of `write_node_ele_as_binary`: the two parses happen
first (their exceptions propagate with the output untouched), then the
output is opened with create/truncate (line 330), and only after that
do the three validations run (lines 332-339).  The open itself is
assumed to succeed, as the `is_open` check (line 341) is not under
test. -/
def write_node_ele_as_binary_events (node_file ele_file : SigFile) (attribute_idx : ℕ) :
    List ExpEv :=
  match read_ele ele_file with
  | .error e => [.fail e]
  | .ok ele =>
    match read_node node_file with
    | .error e => [.fail e]
    | .ok node =>
      .openTrunc ::
        (match write_node_ele_as_binary_core node ele attribute_idx with
         | .error e => [.fail e]
         | .ok file => [.emit file])

/-- Reads `n` float words from the front of a binary file.  Returns
`none` on a truncated file or on a word of the wrong kind (the C++
would reinterpret bytes or leave zero-filled entries there; no claim
exercises those paths). -/
def splitFloats : ℕ → List BWord → Option (List ℚ × List BWord)
  | 0, l => some ([], l)
  | n + 1, .f q :: l =>
    match splitFloats n l with
    | some (qs, rest) => some (q :: qs, rest)
    | none => none
  | _ + 1, _ => none

/-- Reads `n` `uint32` words from the front of a binary file. -/
def splitU32s : ℕ → List BWord → Option (List ℕ × List BWord)
  | 0, l => some ([], l)
  | n + 1, .u m :: l =>
    match splitU32s n l with
    | some (ms, rest) => some (m :: ms, rest)
    | none => none
  | _ + 1, _ => none

/-- The `read_binary` function (lines 401-429): read the three `uint32`
header words, then `num_points * 3` floats (again a wrapping `uint32`
product on both the `resize` and the `read`), `num_points` scalars and
`num_indices` `uint32` indices, returning the points-per-primitive
value and the three arrays. -/
def read_binary (file : List BWord) : Option (ℕ × List ℚ × List ℚ × List ℕ) :=
  match file with
  | .u points_per_primitive :: .u num_points :: .u num_indices :: rest =>
    match splitFloats ((num_points * 3) % 2 ^ 32) rest with
    | some (points, rest2) =>
      match splitFloats num_points rest2 with
      | some (scalars, rest3) =>
        match splitU32s num_indices rest3 with
        | some (indices, _) => some (points_per_primitive, points, scalars, indices)
        | none => none
      | none => none
    | none => none
  | _ => none

/-- Stored value of an element-set node reference whose token is the
natural number `t`: the parsed binary32 value, cast to `uint32`, minus
one with unsigned wrap-around. -/
def u32dec (t : ℕ) : ℕ := (floatRoundNat t + (2 ^ 32 - 1)) % 2 ^ 32

/-- Decidable equality of `Except` results, for evaluating the model on
concrete inputs. -/
instance {ε α : Type} [DecidableEq ε] [DecidableEq α] : DecidableEq (Except ε α) := fun a b =>
  match a, b with
  | .error x, .error y =>
    if h : x = y then .isTrue (by rw [h]) else .isFalse (fun hh => by cases hh; exact h rfl)
  | .ok x, .ok y =>
    if h : x = y then .isTrue (by rw [h]) else .isFalse (fun hh => by cases hh; exact h rfl)
  | .error _, .ok _ => .isFalse (fun hh => by cases hh)
  | .ok _, .error _ => .isFalse (fun hh => by cases hh)

lemma toU32_natCast (n : ℕ) : toU32 (n : ℤ) = n % 2 ^ 32 := by
  unfold toU32
  omega

lemma toU32_natCast_of_lt {n : ℕ} (h : n < 2 ^ 32) : toU32 (n : ℤ) = n := by
  rw [toU32_natCast, Nat.mod_eq_of_lt h]

lemma splitFloats_map (xs : List ℚ) (rest : List BWord) :
    splitFloats xs.length (xs.map BWord.f ++ rest) = some (xs, rest) := by
  induction xs with
  | nil => rfl
  | cons x xs ih => simp [splitFloats, ih]

lemma splitU32s_map (xs : List ℕ) (rest : List BWord) :
    splitU32s xs.length (xs.map BWord.u ++ rest) = some (xs, rest) := by
  induction xs with
  | nil => rfl
  | cons x xs ih => simp [splitU32s, ih]

lemma scalarsOf_length (node : Node) (idx : ℕ) :
    (scalarsOf node idx).length = node.num_points := by
  simp [scalarsOf]

lemma scalarsOf_of_no_attributes {node : Node} (idx : ℕ) (h : node.num_attributes = 0) :
    scalarsOf node idx = List.replicate node.num_points 0 := by
  simp [scalarsOf, h, List.map_const']

lemma listGetD_drop (l : List α) (n m : ℕ) (d : α) :
    (l.drop n).getD m d = l.getD (n + m) d := by
  induction n generalizing l with
  | zero => simp
  | succ k ih =>
    cases l with
    | nil => simp [List.getD]
    | cons x xs =>
      have : k + 1 + m = (k + m) + 1 := by omega
      simp [this, ih xs]

lemma rangeMap_getD_take (l : List α) (d : α) :
    ∀ b : ℕ, b ≤ l.length → (List.range b).map (fun j => l.getD j d) = l.take b := by
  induction l with
  | nil =>
    intro b hb
    have hb0 : b = 0 := by simpa using hb
    subst hb0
    simp
  | cons x xs ih =>
    intro b hb
    cases b with
    | zero => simp
    | succ k =>
      rw [List.range_succ_eq_map]
      simp only [List.map_cons, List.map_map]
      have h1 : (x :: xs).getD 0 d = x := rfl
      have h2 : (List.range k).map ((fun j => (x :: xs).getD j d) ∘ Nat.succ) =
          (List.range k).map (fun j => xs.getD j d) := by
        apply List.map_congr_left
        intro j _
        rfl
      rw [h1, h2, ih k (by simpa using hb)]
      rfl

lemma blockFlatten (npe : ℕ) :
    ∀ (nt : ℕ) (l : List ℕ), l.length = nt * npe →
      (((List.range nt).map
        (fun i => (List.range npe).map (fun j => l.getD (i * npe + j) 0))).flatten = l) := by
  intro nt
  induction nt with
  | zero =>
    intro l hl
    simp at hl
    simp [hl]
  | succ k ih =>
    intro l hl
    rw [List.range_succ_eq_map]
    simp only [List.map_cons, List.map_map, List.flatten_cons]
    have h0 : (List.range npe).map (fun j => l.getD (0 * npe + j) 0) = l.take npe := by
      have : (List.range npe).map (fun j => l.getD (0 * npe + j) 0) =
          (List.range npe).map (fun j => l.getD j 0) := by
        apply List.map_congr_left
        intro j _
        simp
      rw [this]
      exact rangeMap_getD_take l 0 npe (by rw [hl, Nat.succ_mul]; omega)
    have htail : (List.range k).map
        ((fun i => (List.range npe).map (fun j => l.getD (i * npe + j) 0)) ∘ Nat.succ) =
        (List.range k).map
          (fun i => (List.range npe).map (fun j => (l.drop npe).getD (i * npe + j) 0)) := by
      apply List.map_congr_left
      intro i _
      apply List.map_congr_left
      intro j _
      rw [listGetD_drop]
      congr 1
      rw [Nat.succ_mul]
      omega
    rw [h0, htail,
      ih (l.drop npe) (by rw [List.length_drop, hl, Nat.succ_mul]; omega)]
    exact List.take_append_drop npe l

lemma floatRoundNat_of_le {n : ℕ} (h : n ≤ 2 ^ 24) : floatRoundNat n = n := by
  unfold floatRoundNat
  rw [if_pos h]

lemma cvtNodeRef_natCast (t : ℕ) : cvtNodeRef (t : ℚ) = u32dec t := by
  unfold cvtNodeRef u32dec
  rw [if_pos (by simp)]
  simp

lemma cvt_roundtrip {v : ℕ} (h : v + 1 ≤ 2 ^ 24) :
    cvtNodeRef (((v + 1) % 2 ^ 32 : ℕ) : ℚ) = v := by
  have h1 : (v + 1) % 2 ^ 32 = v + 1 := Nat.mod_eq_of_lt (by omega)
  rw [h1, cvtNodeRef_natCast]
  unfold u32dec
  rw [floatRoundNat_of_le h]
  omega

lemma toU32_eq_iff {z : ℤ} {c : ℕ} (hz1 : -(2 ^ 31) ≤ z) (hz2 : z < 2 ^ 31) (hc : c < 2 ^ 31) :
    toU32 z = c ↔ z = c := by
  unfold toU32
  omega

lemma read_node_record_cases (node : Node) (r : List ℚ) :
    read_node_record node r = .error .malformedRecord ∨
      ∃ n2, read_node_record node r = .ok n2 := by
  unfold read_node_record
  split
  · exact .inl rfl
  · exact .inr ⟨_, rfl⟩

lemma read_node_records_cases :
    ∀ (rs : List (List ℚ)) (node : Node),
      read_node_records node rs = .error .malformedRecord ∨
        ∃ n2, read_node_records node rs = .ok n2 := by
  intro rs
  induction rs with
  | nil => exact fun node => .inr ⟨node, rfl⟩
  | cons r rs ih =>
    intro node
    rcases read_node_record_cases node r with h | ⟨n2, h⟩
    · exact .inl (by simp [read_node_records, h])
    · rcases ih n2 with h2 | ⟨n3, h3⟩
      · exact .inl (by simp [read_node_records, h, h2])
      · exact .inr ⟨n3, by simp [read_node_records, h, h3]⟩

lemma read_node_record_fields {node : Node} {r : List ℚ} {n2 : Node}
    (h : read_node_record node r = .ok n2) :
    n2.num_points = node.num_points ∧ n2.dimension = node.dimension ∧
      n2.num_attributes = node.num_attributes ∧
      n2.num_boundary_markers = node.num_boundary_markers := by
  unfold read_node_record at h
  split at h
  · exact absurd h (by simp)
  · cases h
    exact ⟨rfl, rfl, rfl, rfl⟩

lemma read_node_records_ok :
    ∀ (rs : List (List ℚ)) (node : Node),
      (∀ r ∈ rs,
        r.length = (1 + node.dimension + node.num_attributes + node.num_boundary_markers) % 2 ^ 32) →
      ∃ n2, read_node_records node rs = .ok n2 := by
  intro rs
  induction rs with
  | nil => exact fun node _ => ⟨node, rfl⟩
  | cons r rs ih =>
    intro node h
    have hcond : ¬(r.length ≠
        (1 + node.dimension + node.num_attributes + node.num_boundary_markers) % 2 ^ 32) := by
      simp [h r (List.mem_cons_self r rs)]
    rcases read_node_record_cases node r with hbad | ⟨nx, hx⟩
    · exfalso
      unfold read_node_record at hbad
      rw [if_neg hcond] at hbad
      exact absurd hbad (by simp)
    · obtain ⟨hf1, hf2, hf3, hf4⟩ := read_node_record_fields hx
      obtain ⟨n2, h2⟩ := ih nx (by
        rw [hf2, hf3, hf4]
        exact fun r2 hr2 => h r2 (List.mem_cons_of_mem r hr2))
      exact ⟨n2, by simp only [read_node_records, hx]; exact h2⟩

lemma read_ele_records_full :
    ∀ (rs : List (List ℚ)) (ele : Ele),
      (∀ r ∈ rs, r.length = (1 + ele.nodes_per_tetrahedron + ele.num_attributes) % 2 ^ 32) →
      read_ele_records ele rs = .ok { ele with
        nodes := ele.nodes ++ (rs.map (fun r =>
          (List.range ele.nodes_per_tetrahedron).map
            (fun i => cvtNodeRef (r.getD (1 + i) 0)))).flatten,
        attributes := ele.attributes ++ (rs.map (fun r =>
          (List.range ele.num_attributes).map
            (fun i => r.getD (1 + ele.nodes_per_tetrahedron + i) 0))).flatten } := by
  intro rs
  induction rs with
  | nil =>
    intro ele h
    simp [read_ele_records]
  | cons r rs ih =>
    intro ele h
    have hr : read_ele_record ele r = .ok { ele with
        nodes := ele.nodes ++
          (List.range ele.nodes_per_tetrahedron).map (fun i => cvtNodeRef (r.getD (1 + i) 0)),
        attributes := ele.attributes ++
          (List.range ele.num_attributes).map
            (fun i => r.getD (1 + ele.nodes_per_tetrahedron + i) 0) } := by
      unfold read_ele_record
      rw [if_neg (by simp [h r (List.mem_cons_self r rs)])]
    have h2 := ih { ele with
        nodes := ele.nodes ++
          (List.range ele.nodes_per_tetrahedron).map (fun i => cvtNodeRef (r.getD (1 + i) 0)),
        attributes := ele.attributes ++
          (List.range ele.num_attributes).map
            (fun i => r.getD (1 + ele.nodes_per_tetrahedron + i) 0) }
      (fun r2 hr2 => h r2 (List.mem_cons_of_mem r hr2))
    simp only [read_ele_records, hr, h2]
    simp [List.append_assoc]

/-- Helper: `read_binary` inverts a file laid out as header words followed
by float, scalar and index blocks of the declared sizes. -/
lemma read_binary_of_parts (ppp np : ℕ) (pts scal : List ℚ) (idxs : List ℕ)
    (hpts : pts.length = (np * 3) % 2 ^ 32) (hscal : scal.length = np) :
    read_binary ([BWord.u ppp, BWord.u np, BWord.u idxs.length] ++ pts.map BWord.f ++
        scal.map BWord.f ++ idxs.map BWord.u) =
      some (ppp, pts, scal, idxs) := by
  simp only [List.cons_append, List.nil_append, List.append_assoc]
  unfold read_binary
  dsimp only
  rw [← hpts, splitFloats_map]
  dsimp only
  rw [← hscal, splitFloats_map]
  dsimp only
  have h3 : idxs.map BWord.u = idxs.map BWord.u ++ [] := by simp
  rw [h3, splitU32s_map]

/-- Claim C1, counterexample to the unamended claim: a well-formed point set
with `num_points = 1431655766` (so `num_points * 3 = 2 ^ 32 + 2` wraps to `2`
in the `uint32` byte-count arithmetic of lines 356 and 419-420) exports and
re-imports to a coordinate array of length 2, not the original
`4294967298`-entry sequence, refuting the round-trip as universally stated. -/
theorem C1_counterexample :
    ∃ file, write_node_ele_as_binary_core
        ⟨1431655766, 3, 0, 0, List.replicate 4294967298 0, [], []⟩
        ⟨1, 4, 0, [0, 1, 2, 3], []⟩ 0 = .ok file ∧
      ∃ pts scal idxs, read_binary file = some (4, pts, scal, idxs) ∧
        pts.length = 2 ∧
        (⟨1431655766, 3, 0, 0, List.replicate 4294967298 0, [], []⟩ : Node).points.length =
          4294967298 ∧
        pts ≠ (⟨1431655766, 3, 0, 0, List.replicate 4294967298 0, [], []⟩ : Node).points := by
  have hmod : (1431655766 * 3) % 2 ^ 32 = 2 := by norm_num
  have hcore : write_node_ele_as_binary_core
      ⟨1431655766, 3, 0, 0, List.replicate 4294967298 0, [], []⟩
      ⟨1, 4, 0, [0, 1, 2, 3], []⟩ 0 = .ok
      ([BWord.u 4, BWord.u 1431655766, BWord.u ((1 * 4) % 2 ^ 32)] ++
        ((List.replicate 4294967298 (0 : ℚ)).take ((1431655766 * 3) % 2 ^ 32)).map BWord.f ++
        (scalarsOf ⟨1431655766, 3, 0, 0, List.replicate 4294967298 0, [], []⟩ 0).map BWord.f ++
        (([0, 1, 2, 3] : List ℕ).take ((1 * 4) % 2 ^ 32)).map BWord.u) := by
    unfold write_node_ele_as_binary_core
    rw [if_neg (by simp), if_neg (by simp), if_neg (by simp)]
  have e1 : (List.replicate 4294967298 (0 : ℚ)).take ((1431655766 * 3) % 2 ^ 32) =
      List.replicate 2 0 := by
    rw [hmod, List.take_replicate]
    norm_num
  have e2 : (([0, 1, 2, 3] : List ℕ).take ((1 * 4) % 2 ^ 32)) = [0, 1, 2, 3] := by
    norm_num
  have e3 : scalarsOf ⟨1431655766, 3, 0, 0, List.replicate 4294967298 0, [], []⟩ 0 =
      List.replicate 1431655766 0 := scalarsOf_of_no_attributes 0 rfl
  rw [e1, e2, e3] at hcore
  refine ⟨_, hcore, List.replicate 2 0, List.replicate 1431655766 0, [0, 1, 2, 3], ?_,
    List.length_replicate 2 0, ?_, ?_⟩
  · have e4 : ((1 : ℕ) * 4) % 2 ^ 32 = ([0, 1, 2, 3] : List ℕ).length := by norm_num
    rw [e4]
    exact read_binary_of_parts 4 1431655766 (List.replicate 2 0) (List.replicate 1431655766 0)
      [0, 1, 2, 3] (by rw [List.length_replicate, hmod]) (List.length_replicate 1431655766 0)
  · show (List.replicate 4294967298 (0 : ℚ)).length = 4294967298
    rw [List.length_replicate]
  · intro h
    have h2 := congrArg List.length h
    rw [List.length_replicate] at h2
    have h3 : (⟨1431655766, 3, 0, 0, List.replicate 4294967298 0, [], []⟩ : Node).points.length
        = 4294967298 := by
      show (List.replicate 4294967298 (0 : ℚ)).length = 4294967298
      rw [List.length_replicate]
    omega

/-- Claim C1 (amended): for every point set and element set with dimension 3,
nodes-per-element 4 and a valid attribute index, whose arrays have exactly the
declared lengths and whose derived `uint32` products `num_points * 3` and
`num_tetrahedra * 4` do not overflow, exporting with the binary codec and
re-importing yields the same point count, the same index count
(`num_tetrahedra * 4`), the same coordinate sequence, the same selected scalar
sequence, and the same zero-based index sequence.  The overflow proviso is
forced by the counterexample below. -/
theorem C1_roundtrip (node : Node) (ele : Ele) (attribute_idx : ℕ)
    (hd : node.dimension = 3) (ht : ele.nodes_per_tetrahedron = 4)
    (hidx : ¬(node.num_attributes ≤ attribute_idx ∧ attribute_idx ≠ 0))
    (hp : node.points.length = node.num_points * 3)
    (hn : ele.nodes.length = ele.num_tetrahedra * 4)
    (h1 : node.num_points * 3 < 2 ^ 32)
    (h2 : ele.num_tetrahedra * 4 < 2 ^ 32) :
    ∃ file, write_node_ele_as_binary_core node ele attribute_idx = .ok file ∧
      read_binary file =
        some (4, node.points, scalarsOf node attribute_idx, ele.nodes) ∧
      (scalarsOf node attribute_idx).length = node.num_points ∧
      ele.nodes.length = ele.num_tetrahedra * 4 := by
  have hcore : write_node_ele_as_binary_core node ele attribute_idx = .ok
      ([BWord.u 4, BWord.u node.num_points, BWord.u ((ele.num_tetrahedra * 4) % 2 ^ 32)] ++
        (node.points.take ((node.num_points * 3) % 2 ^ 32)).map BWord.f ++
        (scalarsOf node attribute_idx).map BWord.f ++
        (ele.nodes.take ((ele.num_tetrahedra * 4) % 2 ^ 32)).map BWord.u) := by
    unfold write_node_ele_as_binary_core
    rw [if_neg hidx, if_neg (by simp [hd]), if_neg (by simp [ht])]
  have e1 : (node.num_points * 3) % 2 ^ 32 = node.num_points * 3 := Nat.mod_eq_of_lt h1
  have e2 : (ele.num_tetrahedra * 4) % 2 ^ 32 = ele.num_tetrahedra * 4 := Nat.mod_eq_of_lt h2
  have etake1 : node.points.take ((node.num_points * 3) % 2 ^ 32) = node.points := by
    rw [e1, ← hp]
    exact List.take_length node.points
  have etake2 : ele.nodes.take ((ele.num_tetrahedra * 4) % 2 ^ 32) = ele.nodes := by
    rw [e2, ← hn]
    exact List.take_length ele.nodes
  refine ⟨_, hcore, ?_, scalarsOf_length node attribute_idx, hn⟩
  rw [etake1, etake2]
  have e3 : (ele.num_tetrahedra * 4) % 2 ^ 32 = ele.nodes.length := by rw [e2, hn]
  rw [e3]
  exact read_binary_of_parts 4 node.num_points node.points (scalarsOf node attribute_idx)
    ele.nodes (by rw [hp, e1]) (scalarsOf_length node attribute_idx)

/-- Claim C1, witness: the amended round-trip evaluated on a concrete
two-point, one-tetrahedron mesh with one attribute. -/
theorem C1_witness :
    ∃ file, write_node_ele_as_binary_core ⟨2, 3, 1, 0, [1, 2, 3, 4, 5, 6], [9, 8], []⟩
        ⟨1, 4, 0, [0, 1, 1, 0], []⟩ 0 = .ok file ∧
      read_binary file =
        some (4, [1, 2, 3, 4, 5, 6],
          scalarsOf ⟨2, 3, 1, 0, [1, 2, 3, 4, 5, 6], [9, 8], []⟩ 0, [0, 1, 1, 0]) ∧
      (scalarsOf ⟨2, 3, 1, 0, [1, 2, 3, 4, 5, 6], [9, 8], []⟩ 0).length = 2 ∧
      ([0, 1, 1, 0] : List ℕ).length = 1 * 4 :=
  C1_roundtrip ⟨2, 3, 1, 0, [1, 2, 3, 4, 5, 6], [9, 8], []⟩ ⟨1, 4, 0, [0, 1, 1, 0], []⟩ 0
    rfl rfl (by decide) rfl rfl (by decide) (by decide)

/-- Claim C3, counterexample to the unamended claim: the element set with
zero-based node index 100000001 satisfies every writer constraint, but
`write_ele` emits the one-based token 100000002, which `read_ele` parses with
`iss >> float` into the binary32 value 100000000 (line 214), so the re-parsed
index is 99999999 and the original sequence is not reproduced. -/
theorem C3_counterexample :
    write_ele ⟨1, 4, 0, [0, 1, 2, 100000001], []⟩ =
      .ok ⟨[1, 4, 0], [[0, 1, 2, 3, 100000002]]⟩ ∧
    read_ele ⟨[1, 4, 0], [[0, 1, 2, 3, 100000002]]⟩ =
      .ok ⟨1, 4, 0, [0, 1, 2, 99999999], []⟩ ∧
    ([0, 1, 2, 99999999] : List ℕ) ≠ [0, 1, 2, 100000001] := by
  refine ⟨by rfl, by rfl, by decide⟩

/-- Claim C3 (amended): write→read round-trip for element sets whose arrays
have exactly the declared lengths, whose derived `uint32` quantities do not
overflow, and whose one-based node indices `n + 1` are at most `2 ^ 24` (hence
exactly representable in binary32): the header fields and the zero-based
node-index sequence are reproduced exactly.  The representability proviso is
forced by the counterexample below; the attribute sequence is not covered
because its round-trip additionally hinges on float decimal formatting, which
is outside this model. -/
theorem C3_roundtrip (ele : Ele)
    (h1 : 0 < ele.num_tetrahedra) (h2 : ele.num_tetrahedra < 2 ^ 32)
    (h3 : ele.nodes_per_tetrahedron = 4 ∨ ele.nodes_per_tetrahedron = 10)
    (h4 : 1 + ele.nodes_per_tetrahedron + ele.num_attributes < 2 ^ 32)
    (h5 : ele.nodes.length = ele.num_tetrahedra * ele.nodes_per_tetrahedron)
    (h6 : ele.num_tetrahedra * ele.nodes_per_tetrahedron < 2 ^ 32)
    (h7 : ele.attributes.length = ele.num_tetrahedra * ele.num_attributes)
    (h8 : ele.num_tetrahedra * ele.num_attributes < 2 ^ 32)
    (h9 : ∀ n ∈ ele.nodes, n + 1 ≤ 2 ^ 24) :
    ∃ f, write_ele ele = .ok f ∧
      ∃ ele2, read_ele f = .ok ele2 ∧
        ele2.num_tetrahedra = ele.num_tetrahedra ∧
        ele2.nodes_per_tetrahedron = ele.nodes_per_tetrahedron ∧
        ele2.num_attributes = ele.num_attributes ∧
        ele2.nodes = ele.nodes := by
  have hw : write_ele ele = .ok
      ⟨[(ele.num_tetrahedra : ℤ), (ele.nodes_per_tetrahedron : ℤ), (ele.num_attributes : ℤ)],
        (List.range ele.num_tetrahedra).map (fun (i : ℕ) =>
          (i : ℚ) ::
            ((List.range ele.nodes_per_tetrahedron).map
              (fun j => (((ele.nodes.getD ((i * ele.nodes_per_tetrahedron + j) % 2 ^ 32) 0 + 1)
                % 2 ^ 32 : ℕ) : ℚ)) ++
             (List.range ele.num_attributes).map
              (fun j => ele.attributes.getD ((i * ele.num_attributes + j) % 2 ^ 32) 0)))⟩ := by
    unfold write_ele
    rw [if_neg (by omega),
        if_neg (by rw [not_not]; exact h3),
        if_neg (by simp),
        if_neg (by rw [Nat.mod_eq_of_lt h6, h5]; exact lt_irrefl _),
        if_neg (by rw [Nat.mod_eq_of_lt h8, h7]; exact lt_irrefl _)]
  have hnpe32 : ele.nodes_per_tetrahedron < 2 ^ 32 := by rcases h3 with h | h <;> omega
  have hna32 : ele.num_attributes < 2 ^ 32 := by omega
  have hu1 : toU32 (ele.num_tetrahedra : ℤ) = ele.num_tetrahedra := toU32_natCast_of_lt h2
  have hu2 : toU32 (ele.nodes_per_tetrahedron : ℤ) = ele.nodes_per_tetrahedron :=
    toU32_natCast_of_lt hnpe32
  have hu3 : toU32 (ele.num_attributes : ℤ) = ele.num_attributes := toU32_natCast_of_lt hna32
  have hcond : ∀ r ∈ (List.range ele.num_tetrahedra).map (fun (i : ℕ) =>
          (i : ℚ) ::
            ((List.range ele.nodes_per_tetrahedron).map
              (fun j => (((ele.nodes.getD ((i * ele.nodes_per_tetrahedron + j) % 2 ^ 32) 0 + 1)
                % 2 ^ 32 : ℕ) : ℚ)) ++
             (List.range ele.num_attributes).map
              (fun j => ele.attributes.getD ((i * ele.num_attributes + j) % 2 ^ 32) 0))),
      r.length = (1 + ele.nodes_per_tetrahedron + ele.num_attributes) % 2 ^ 32 := by
    intro r hr
    obtain ⟨i, hi, rfl⟩ := List.mem_map.mp hr
    rw [Nat.mod_eq_of_lt h4]
    simp [List.length_cons, List.length_append]
    omega
  have hread : read_ele
      ⟨[(ele.num_tetrahedra : ℤ), (ele.nodes_per_tetrahedron : ℤ), (ele.num_attributes : ℤ)],
        (List.range ele.num_tetrahedra).map (fun (i : ℕ) =>
          (i : ℚ) ::
            ((List.range ele.nodes_per_tetrahedron).map
              (fun j => (((ele.nodes.getD ((i * ele.nodes_per_tetrahedron + j) % 2 ^ 32) 0 + 1)
                % 2 ^ 32 : ℕ) : ℚ)) ++
             (List.range ele.num_attributes).map
              (fun j => ele.attributes.getD ((i * ele.num_attributes + j) % 2 ^ 32) 0)))⟩ =
      .ok { num_tetrahedra := ele.num_tetrahedra
            nodes_per_tetrahedron := ele.nodes_per_tetrahedron
            num_attributes := ele.num_attributes
            nodes := [] ++ (((List.range ele.num_tetrahedra).map (fun (i : ℕ) =>
              (i : ℚ) ::
                ((List.range ele.nodes_per_tetrahedron).map
                  (fun j => (((ele.nodes.getD ((i * ele.nodes_per_tetrahedron + j) % 2 ^ 32) 0 + 1)
                    % 2 ^ 32 : ℕ) : ℚ)) ++
                 (List.range ele.num_attributes).map
                  (fun j => ele.attributes.getD ((i * ele.num_attributes + j) % 2 ^ 32) 0)))).map
                (fun r => (List.range ele.nodes_per_tetrahedron).map
                  (fun i => cvtNodeRef (r.getD (1 + i) 0)))).flatten
            attributes := [] ++ (((List.range ele.num_tetrahedra).map (fun (i : ℕ) =>
              (i : ℚ) ::
                ((List.range ele.nodes_per_tetrahedron).map
                  (fun j => (((ele.nodes.getD ((i * ele.nodes_per_tetrahedron + j) % 2 ^ 32) 0 + 1)
                    % 2 ^ 32 : ℕ) : ℚ)) ++
                 (List.range ele.num_attributes).map
                  (fun j => ele.attributes.getD ((i * ele.num_attributes + j) % 2 ^ 32) 0)))).map
                (fun r => (List.range ele.num_attributes).map
                  (fun i => r.getD (1 + ele.nodes_per_tetrahedron + i) 0))).flatten } := by
    unfold read_ele
    rw [if_neg (by simp)]
    simp only [List.getD_cons_zero, List.getD_cons_succ]
    rw [hu1, hu2, hu3]
    rw [if_neg (by omega)]
    rw [if_neg (by rw [not_not]; exact h3)]
    rw [if_neg (by simp)]
    exact read_ele_records_full _ ⟨ele.num_tetrahedra, ele.nodes_per_tetrahedron,
      ele.num_attributes, [], []⟩ hcond
  refine ⟨_, hw, _, hread, rfl, rfl, rfl, ?_⟩
  show [] ++ _ = ele.nodes
  rw [List.nil_append, List.map_map]
  have hcongr : ∀ i ∈ List.range ele.num_tetrahedra,
      ((fun r => (List.range ele.nodes_per_tetrahedron).map
          (fun i => cvtNodeRef (List.getD r (1 + i) 0))) ∘ (fun (i : ℕ) =>
          (i : ℚ) ::
            ((List.range ele.nodes_per_tetrahedron).map
              (fun j => (((ele.nodes.getD ((i * ele.nodes_per_tetrahedron + j) % 2 ^ 32) 0 + 1)
                % 2 ^ 32 : ℕ) : ℚ)) ++
             (List.range ele.num_attributes).map
              (fun j => ele.attributes.getD ((i * ele.num_attributes + j) % 2 ^ 32) 0)))) i =
      (List.range ele.nodes_per_tetrahedron).map
        (fun j => ele.nodes.getD (i * ele.nodes_per_tetrahedron + j) 0) := by
    intro i hi
    have hi2 : i < ele.num_tetrahedra := List.mem_range.mp hi
    apply List.map_congr_left
    intro jj hjj
    have hjj2 : jj < ele.nodes_per_tetrahedron := List.mem_range.mp hjj
    have hidx : i * ele.nodes_per_tetrahedron + jj <
        ele.num_tetrahedra * ele.nodes_per_tetrahedron := by
      calc i * ele.nodes_per_tetrahedron + jj
          < i * ele.nodes_per_tetrahedron + ele.nodes_per_tetrahedron := by omega
        _ = (i + 1) * ele.nodes_per_tetrahedron := by ring
        _ ≤ ele.num_tetrahedra * ele.nodes_per_tetrahedron :=
            Nat.mul_le_mul_right _ (by omega)
    have hb2 : i * ele.nodes_per_tetrahedron + jj < 2 ^ 32 := lt_trans hidx h6
    have htok : List.getD ((i : ℚ) ::
        ((List.range ele.nodes_per_tetrahedron).map
          (fun j => (((ele.nodes.getD ((i * ele.nodes_per_tetrahedron + j) % 2 ^ 32) 0 + 1)
            % 2 ^ 32 : ℕ) : ℚ)) ++
         (List.range ele.num_attributes).map
          (fun j => ele.attributes.getD ((i * ele.num_attributes + j) % 2 ^ 32) 0))) (1 + jj) 0 =
        (((ele.nodes.getD (i * ele.nodes_per_tetrahedron + jj) 0 + 1) % 2 ^ 32 : ℕ) : ℚ) := by
      rw [Nat.add_comm 1 jj, List.getD_cons_succ]
      rw [List.getD_append _ _ _ _ (by simpa using hjj2)]
      rw [List.getD_eq_getElem _ _ (by simpa using hjj2)]
      simp only [List.getElem_map, List.getElem_range]
      rw [Nat.mod_eq_of_lt hb2]
    show cvtNodeRef _ = _
    rw [htok]
    apply cvt_roundtrip
    apply h9
    rw [List.getD_eq_getElem _ _ (by rw [h5]; exact hidx)]
    exact List.getElem_mem _
  rw [List.map_congr_left hcongr]
  exact blockFlatten ele.nodes_per_tetrahedron ele.num_tetrahedra ele.nodes h5

/-- Claim C3, witness: the amended round-trip evaluated on one tetrahedron
with node indices 0,1,2,3. -/
theorem C3_witness :
    0 < 1 ∧
    ∃ f, write_ele ⟨1, 4, 0, [0, 1, 2, 3], []⟩ = .ok f ∧
      ∃ ele2, read_ele f = .ok ele2 ∧
        ele2.num_tetrahedra = 1 ∧
        ele2.nodes_per_tetrahedron = 4 ∧
        ele2.num_attributes = 0 ∧
        ele2.nodes = [0, 1, 2, 3] := by
  refine ⟨by decide, ?_⟩
  exact C3_roundtrip ⟨1, 4, 0, [0, 1, 2, 3], []⟩ (by decide) (by decide) (.inl rfl)
    (by decide) rfl (by decide) rfl (by decide) (by decide)

/-- Claim C4, counterexample: the header `-1 3 0 0` has `point_count = -1 ≤ 0`,
which the claim says must fail with `InvalidHeaderField`, but the `int` value
is first stored into the `uint32_t` field (line 107), wrapping to 4294967295,
so the check `num_points <= 0` (line 112) passes and parsing succeeds. -/
theorem C4_counterexample :
    (-1 : ℤ) ≤ 0 ∧
    read_node ⟨[-1, 3, 0, 0], []⟩ = .ok ⟨4294967295, 3, 0, 0, [], [], []⟩ := by
  constructor
  · decide
  · rfl

/-- Claim C4 (amended): for a point-set file whose first significant line has
exactly 4 integer tokens in `int` range, parsing fails with
`InvalidHeaderField` exactly when `point_count = 0`, or `dimension ∉ {2,3}`,
or `boundary_marker_count ∉ {0,1}`.  Negative `point_count` values wrap to
large unsigned values and are accepted, and the `attribute_count < 0` check on
the unsigned field can never fire. -/
theorem C4_amended (pc d na bm : ℤ) (rs : List (List ℚ))
    (hpc1 : -(2 ^ 31) ≤ pc) (hpc2 : pc < 2 ^ 31)
    (hd1 : -(2 ^ 31) ≤ d) (hd2 : d < 2 ^ 31)
    (hna1 : -(2 ^ 31) ≤ na) (hna2 : na < 2 ^ 31)
    (hbm1 : -(2 ^ 31) ≤ bm) (hbm2 : bm < 2 ^ 31) :
    (∃ field, read_node ⟨[pc, d, na, bm], rs⟩ = .error (.invalidHeaderField field)) ↔
      (pc = 0 ∨ ¬(d = 2 ∨ d = 3) ∨ ¬(bm = 0 ∨ bm = 1)) := by
  have e0 : toU32 pc ≤ 0 ↔ pc = 0 := by
    rw [Nat.le_zero, toU32_eq_iff hpc1 hpc2 (by norm_num)]
    norm_num
  have e2 : (toU32 d = 2 ∨ toU32 d = 3) ↔ (d = 2 ∨ d = 3) := by
    rw [toU32_eq_iff hd1 hd2 (by norm_num), toU32_eq_iff hd1 hd2 (by norm_num)]
    norm_num
  have e3 : (toU32 bm = 1 ∨ toU32 bm = 0) ↔ (bm = 1 ∨ bm = 0) := by
    rw [toU32_eq_iff hbm1 hbm2 (by norm_num), toU32_eq_iff hbm1 hbm2 (by norm_num)]
    norm_num
  unfold read_node
  rw [if_neg (by simp)]
  simp only [List.getD_cons_zero, List.getD_cons_succ]
  by_cases hc1 : pc = 0
  · rw [if_pos (e0.mpr hc1)]
    simp [hc1]
  · rw [if_neg (by rw [e0]; exact hc1)]
    by_cases hc2 : d = 2 ∨ d = 3
    · rw [if_neg (by rw [not_not, e2]; exact hc2)]
      rw [if_neg (by simp)]
      by_cases hc3 : bm = 0 ∨ bm = 1
      · rw [if_neg (by rw [not_not, e3]; tauto)]
        have hend : ∀ res : Except Err Node,
            (res = .error .malformedRecord ∨ ∃ n2, res = .ok n2) →
            ((∃ field, res = .error (.invalidHeaderField field)) ↔
              (pc = 0 ∨ ¬(d = 2 ∨ d = 3) ∨ ¬(bm = 0 ∨ bm = 1))) := by
          intro res hres
          constructor
          · rintro ⟨field, hf⟩
            rcases hres with h | ⟨n2, h⟩ <;> rw [h] at hf <;> exact absurd hf (by simp)
          · intro hR
            rcases hR with h | h | h
            · exact absurd h hc1
            · exact absurd hc2 h
            · exact absurd hc3 h
        exact hend _ (read_node_records_cases rs _)
      · rw [if_pos (by rw [e3]; tauto)]
        simp [hc3]
    · rw [if_pos (by rw [e2]; exact hc2)]
      simp [hc2]

/-- Claim C4, witness: the amended characterisation evaluated on the header
`5 4 0 0`, rejected for its dimension field. -/
theorem C4_witness :
    (∃ field, read_node ⟨[5, 4, 0, 0], []⟩ = .error (.invalidHeaderField field)) ↔
      ((5 : ℤ) = 0 ∨ ¬((4 : ℤ) = 2 ∨ (4 : ℤ) = 3) ∨ ¬((0 : ℤ) = 0 ∨ (0 : ℤ) = 1)) :=
  C4_amended 5 4 0 0 [] (by decide) (by decide) (by decide) (by decide) (by decide)
    (by decide) (by decide) (by decide)

/-- Claim C5: with `attribute_count = 0`, binary export at `attribute_index 0`
succeeds and writes an all-zero scalar block of length `num_points`, while
`attribute_index 1` fails with `AttributeIndexOutOfRange`; in general the
export fails with `AttributeIndexOutOfRange` exactly when
`attribute_count ≤ attribute_index` and `attribute_index ≠ 0`. -/
theorem C5_attribute_index (node : Node) (ele : Ele)
    (hna : node.num_attributes = 0) (hd : node.dimension = 3)
    (ht : ele.nodes_per_tetrahedron = 4) :
    write_node_ele_as_binary_core node ele 0 =
      .ok ([BWord.u 4, BWord.u node.num_points, BWord.u ((ele.num_tetrahedra * 4) % 2 ^ 32)] ++
        (node.points.take ((node.num_points * 3) % 2 ^ 32)).map BWord.f ++
        (List.replicate node.num_points (0 : ℚ)).map BWord.f ++
        (ele.nodes.take ((ele.num_tetrahedra * 4) % 2 ^ 32)).map BWord.u) ∧
    write_node_ele_as_binary_core node ele 1 = .error .attributeIndexOutOfRange ∧
    (∀ (node2 : Node) (ele2 : Ele) (idx : ℕ),
      write_node_ele_as_binary_core node2 ele2 idx = .error .attributeIndexOutOfRange ↔
        (node2.num_attributes ≤ idx ∧ idx ≠ 0)) := by
  refine ⟨?_, ?_, ?_⟩
  · unfold write_node_ele_as_binary_core
    rw [if_neg (by simp)]
    rw [if_neg (by simp [hd])]
    rw [if_neg (by simp [ht])]
    rw [scalarsOf_of_no_attributes 0 hna]
  · unfold write_node_ele_as_binary_core
    rw [if_pos (by simp [hna])]
  · intro node2 ele2 idx
    unfold write_node_ele_as_binary_core
    by_cases hc : node2.num_attributes ≤ idx ∧ idx ≠ 0
    · rw [if_pos hc]
      simp [hc]
    · rw [if_neg hc]
      by_cases h2 : node2.dimension ≠ 3
      · rw [if_pos h2]
        simp [hc]
      · rw [if_neg h2]
        by_cases h3 : ele2.nodes_per_tetrahedron ≠ 4
        · rw [if_pos h3]
          simp [hc]
        · rw [if_neg h3]
          simp [hc]

/-- Claim C5, witness: requesting attribute 1 of an attribute-free export on a
concrete mesh fails with `AttributeIndexOutOfRange`. -/
theorem C5_witness :
    (⟨2, 3, 0, 0, [1, 2, 3, 4, 5, 6], [], []⟩ : Node).num_attributes = 0 ∧
    write_node_ele_as_binary_core ⟨2, 3, 0, 0, [1, 2, 3, 4, 5, 6], [], []⟩
      ⟨1, 4, 0, [0, 1, 0, 1], []⟩ 1 = .error .attributeIndexOutOfRange :=
  ⟨rfl, (C5_attribute_index ⟨2, 3, 0, 0, [1, 2, 3, 4, 5, 6], [], []⟩
    ⟨1, 4, 0, [0, 1, 0, 1], []⟩ rfl rfl rfl).2.1⟩

/-- Claim C6, counterexample: a `Node` with `num_boundary_markers = 1` but an
empty `boundary_markers` array passes `write_node`'s validation and emits
output, because the source checks only the `points` and `attributes` lengths
(lines 247-251) and never the `boundary_markers` length, contradicting the
claim that any of the three short arrays fails with `SizeMismatch`. -/
theorem C6_counterexample :
    write_node ⟨1, 2, 0, 1, [0, 0], [], []⟩ = .ok ⟨[1, 2, 0, 1], [[0, 0, 0, 0]]⟩ ∧
    (⟨1, 2, 0, 1, [0, 0], [], []⟩ : Node).boundary_markers.length <
      (⟨1, 2, 0, 1, [0, 0], [], []⟩ : Node).num_points *
        (⟨1, 2, 0, 1, [0, 0], [], []⟩ : Node).num_boundary_markers := by
  constructor
  · rfl
  · decide

/-- Claim C6 (amended): for every `Node` with valid header fields,
`write_node` fails with `SizeMismatch` exactly when the `points` or
`attributes` array is shorter than its `uint32` required length, and emits
output exactly otherwise; the `boundary_markers` length is never checked. -/
theorem C6_amended (node : Node)
    (h1 : 0 < node.num_points)
    (h2 : node.dimension = 2 ∨ node.dimension = 3)
    (h3 : node.num_boundary_markers = 0 ∨ node.num_boundary_markers = 1) :
    (write_node node = .error .sizeMismatch ↔
      (node.points.length < (node.num_points * node.dimension) % 2 ^ 32 ∨
       node.attributes.length < (node.num_points * node.num_attributes) % 2 ^ 32)) ∧
    ((∃ f, write_node node = .ok f) ↔
      ¬(node.points.length < (node.num_points * node.dimension) % 2 ^ 32 ∨
        node.attributes.length < (node.num_points * node.num_attributes) % 2 ^ 32)) := by
  unfold write_node
  rw [if_neg (by omega)]
  rw [if_neg (by rw [not_not]; exact h2)]
  rw [if_neg (by simp)]
  rw [if_neg (by rw [not_not]; tauto)]
  by_cases hp : node.points.length < (node.num_points * node.dimension) % 2 ^ 32
  · rw [if_pos hp]
    constructor <;> (first | (simp; omega) | simp)
  · rw [if_neg hp]
    by_cases ha : node.attributes.length < (node.num_points * node.num_attributes) % 2 ^ 32
    · rw [if_pos ha]
      constructor <;> (first | (simp; omega) | simp)
    · rw [if_neg ha]
      constructor <;> (first | (simp; omega) | simp)

/-- Claim C6, witness: the amended characterisation evaluated on a concrete
well-formed two-point set. -/
theorem C6_witness :
    0 < 2 ∧
    ((write_node ⟨2, 3, 0, 0, [1, 2, 3], [], []⟩ = .error .sizeMismatch ↔
      (([1, 2, 3] : List ℚ).length < (2 * 3) % 2 ^ 32 ∨
       ([] : List ℚ).length < (2 * 0) % 2 ^ 32)) ∧
     ((∃ f, write_node ⟨2, 3, 0, 0, [1, 2, 3], [], []⟩ = .ok f) ↔
      ¬(([1, 2, 3] : List ℚ).length < (2 * 3) % 2 ^ 32 ∨
        ([] : List ℚ).length < (2 * 0) % 2 ^ 32))) :=
  ⟨by decide, C6_amended ⟨2, 3, 0, 0, [1, 2, 3], [], []⟩ (by decide) (by decide) (by decide)⟩

/-- Claim C7, counterexample: exporting with an out-of-range attribute index
produces the event trace `[openTrunc, fail AttributeIndexOutOfRange]` — the
output file is created/truncated (line 330) BEFORE the validation failure
(lines 332-339), contradicting the claim that the filesystem at the output
path is unchanged on a validation error. -/
theorem C7_counterexample :
    write_node_ele_as_binary_events ⟨[1, 3, 0, 0], [[0, 5, 6, 7]]⟩
      ⟨[1, 4, 0], [[1, 1, 2, 3, 4]]⟩ 1 =
      [.openTrunc, .fail .attributeIndexOutOfRange] := by
  rfl

/-- Claim C7 (amended): the validation of dimension, topology and attribute
index happens only after the output file has been opened for truncating
binary write, so every validation failure leaves a created/truncated output
file: the event trace is always `openTrunc` followed by the failure. -/
theorem C7_amended (node_file ele_file : SigFile) (attribute_idx : ℕ)
    (ele : Ele) (node : Node) (e : Err)
    (he : read_ele ele_file = .ok ele)
    (hn : read_node node_file = .ok node)
    (hc : write_node_ele_as_binary_core node ele attribute_idx = .error e) :
    write_node_ele_as_binary_events node_file ele_file attribute_idx =
      [.openTrunc, .fail e] := by
  simp only [write_node_ele_as_binary_events, he, hn, hc]

/-- Claim C7, witness: the amended trace shape evaluated on a dimension-2
point-set file. -/
theorem C7_witness :
    read_ele ⟨[1, 4, 0], [[1, 1, 2, 3, 4]]⟩ = .ok ⟨1, 4, 0, [0, 1, 2, 3], []⟩ ∧
    write_node_ele_as_binary_events ⟨[1, 2, 0, 0], [[0, 5, 6]]⟩
      ⟨[1, 4, 0], [[1, 1, 2, 3, 4]]⟩ 0 = [.openTrunc, .fail .unsupportedDimension] :=
  ⟨by rfl,
   C7_amended ⟨[1, 2, 0, 0], [[0, 5, 6]]⟩ ⟨[1, 4, 0], [[1, 1, 2, 3, 4]]⟩ 0
     ⟨1, 4, 0, [0, 1, 2, 3], []⟩ ⟨1, 2, 0, 0, [5, 6], [], []⟩ .unsupportedDimension
     rfl rfl rfl⟩

/-- Claim C8: with a valid header and every body record holding exactly
`1 + dimension + attribute_count + boundary_marker_count` numbers, parsing
succeeds for ANY number of body records — no check against the declared
`point_count` exists (the record list `rs` is arbitrary). -/
theorem C8_lenient_record_count (pc d na bm : ℤ) (rs : List (List ℚ))
    (hpc : 0 < pc) (hpc2 : pc < 2 ^ 31)
    (hd : d = 2 ∨ d = 3)
    (hna : 0 ≤ na) (hna2 : na < 2 ^ 31)
    (hbm : bm = 0 ∨ bm = 1)
    (hrec : ∀ r ∈ rs, r.length = 1 + d.toNat + na.toNat + bm.toNat) :
    ∃ node, read_node ⟨[pc, d, na, bm], rs⟩ = .ok node := by
  have hd' : 0 ≤ d ∧ d ≤ 3 := by rcases hd with h | h <;> omega
  have hbm' : 0 ≤ bm ∧ bm ≤ 1 := by rcases hbm with h | h <;> omega
  have hu_pc : toU32 pc = pc.toNat := by unfold toU32; omega
  have hu_d : toU32 d = d.toNat := by unfold toU32; omega
  have hu_na : toU32 na = na.toNat := by unfold toU32; omega
  have hu_bm : toU32 bm = bm.toNat := by unfold toU32; omega
  unfold read_node
  rw [if_neg (by simp)]
  simp only [List.getD_cons_zero, List.getD_cons_succ]
  rw [if_neg (by rw [hu_pc]; omega)]
  rw [if_neg (by rw [not_not, hu_d]; rcases hd with h | h <;> subst h <;> simp)]
  rw [if_neg (by simp)]
  rw [if_neg (by rw [not_not, hu_bm]; rcases hbm with h | h <;> subst h <;> simp)]
  apply read_node_records_ok
  intro r hr
  show r.length = (1 + toU32 d + toU32 na + toU32 bm) % 2 ^ 32
  rw [hu_d, hu_na, hu_bm, hrec r hr]
  rw [Nat.mod_eq_of_lt (by omega)]

/-- Claim C8, witness: a file declaring 2 points but containing a single
record parses successfully. -/
theorem C8_witness :
    (0 : ℤ) < 2 ∧ ∃ node, read_node ⟨[2, 3, 0, 0], [[0, 1, 2, 3]]⟩ = .ok node :=
  ⟨by decide,
   C8_lenient_record_count 2 3 0 0 [[0, 1, 2, 3]] (by decide) (by decide) (.inr rfl)
     (by decide) (by decide) (.inl rfl)
     (by intro r hr; simp at hr; subst hr; rfl)⟩

/-- Claim C9: the concrete scenario — point-set header `4 3 0 0` with four 3-D
point records and element-set header `1 4 0` with the single record
`1 1 2 3 4` (leading element index, then one-based nodes 1..4) — exports to a
binary file whose three `uint32` header words are (4, 4, 4) and whose index
block is the zero-based (0, 1, 2, 3). -/
theorem C9_concrete_scenario :
    write_node_ele_as_binary
      ⟨[4, 3, 0, 0], [[1, 0, 0, 0], [2, 1, 0, 0], [3, 0, 1, 0], [4, 0, 0, 1]]⟩
      ⟨[1, 4, 0], [[1, 1, 2, 3, 4]]⟩ 0 =
    .ok [BWord.u 4, BWord.u 4, BWord.u 4,
      BWord.f 0, BWord.f 0, BWord.f 0,
      BWord.f 1, BWord.f 0, BWord.f 0,
      BWord.f 0, BWord.f 1, BWord.f 0,
      BWord.f 0, BWord.f 0, BWord.f 1,
      BWord.f 0, BWord.f 0, BWord.f 0, BWord.f 0,
      BWord.u 0, BWord.u 1, BWord.u 2, BWord.u 3] := by
  rfl

/-- Claim C10: an element-set body record is accepted without any range check
on its node-reference tokens; each token is parsed as a binary32 float, cast
to `uint32` and decremented with unsigned wrap-around (`u32dec`), so the
token 0 is stored as 4294967295. -/
theorem C10_zero_index_wraps (i t1 t2 t3 t4 : ℕ)
    (h1 : floatRoundNat t1 < 2 ^ 32) (h2 : floatRoundNat t2 < 2 ^ 32)
    (h3 : floatRoundNat t3 < 2 ^ 32) (h4 : floatRoundNat t4 < 2 ^ 32) :
    read_ele ⟨[1, 4, 0], [[(i : ℚ), (t1 : ℚ), (t2 : ℚ), (t3 : ℚ), (t4 : ℚ)]]⟩ =
      .ok ⟨1, 4, 0, [u32dec t1, u32dec t2, u32dec t3, u32dec t4], []⟩ ∧
    u32dec 0 = 4294967295 := by
  constructor
  · rw [← cvtNodeRef_natCast t1, ← cvtNodeRef_natCast t2, ← cvtNodeRef_natCast t3,
      ← cvtNodeRef_natCast t4]
    rfl
  · decide

/-- Claim C10, witness: the record `0 0 0 0 0` parses without error and stores
four node indices 4294967295. -/
theorem C10_witness :
    floatRoundNat 0 < 2 ^ 32 ∧
    read_ele ⟨[1, 4, 0], [[((0 : ℕ) : ℚ), ((0 : ℕ) : ℚ), ((0 : ℕ) : ℚ), ((0 : ℕ) : ℚ), ((0 : ℕ) : ℚ)]]⟩ =
      .ok ⟨1, 4, 0, [4294967295, 4294967295, 4294967295, 4294967295], []⟩ := by
  have h := C10_zero_index_wraps 0 0 0 0 0 (by decide) (by decide) (by decide) (by decide)
  refine ⟨by decide, ?_⟩
  have h2 := h.1
  rw [h.2] at h2
  exact h2

